import Mathlib

/-
Shallow embedding of the Lua event bridge of Source/Core/Core/LuaInterface.{h,cpp}.

The module-level mutable state (pending FIFO queue, 8-word atomic event mask,
thread-running flag, current event, exposed script pointer) is gathered into an
explicit `State` record; each C function becomes a state-passing Lean function.
The uint32 mask words are Nat values; the C bitwise operators map to Nat
bitwise operators, with `~(1 << e)` rendered as `(2 ^ 32 - 1) ^^^ (1 <<< e)`
(the complement within 32 bits).  `Dolphin_Evaluate_Script` (a `const char *`,
null when no script is exposed) is an `Option String`.
-/

namespace Lua

/-- The variant `AnyEvent = std::variant<None, Stop, Evaluate, Frame>`:
only `Evaluate` carries a payload (the script text). -/
inductive AnyEvent where
  | None : AnyEvent
  | Stop : AnyEvent
  | Evaluate : String → AnyEvent
  | Frame : AnyEvent
deriving DecidableEq, Repr

/-- `Event::ID<Event::Stop> = 0`. -/
def stopID : Nat := 0

/-- `Event::ID<Event::Evaluate> = 1`. -/
def evaluateID : Nat := 1

/-- `Event::ID<Event::Frame> = 2`. -/
def frameID : Nat := 2

/-- `Event::ID<Event::None> = 256`, the sentinel, first invalid kind. -/
def noneID : Nat := 256

/-- The kind ID of an event value (the `AnyEventToID` visitor). -/
def eventID : AnyEvent → Nat
  | AnyEvent.None => noneID
  | AnyEvent.Stop => stopID
  | AnyEvent.Evaluate _ => evaluateID
  | AnyEvent.Frame => frameID

/-- The array `std::atomic<uint32_t> s_event_mask[8]`, as a map from word
index to word value.  Only indices 0..7 are ever touched by the code (proved
below); each word stays below `2 ^ 32`. -/
abbrev Mask := Nat → Nat

/-- The index/bit-splitting loop shared by the three mask functions:
`while (event >= 32) { i++; event -= 32; }`.  Returns the final
(event, i) pair, i.e. (bit within word, word index). -/
def maskLoop (event i : Nat) : Nat × Nat :=
  if h : 32 ≤ event then maskLoop (event - 32) (i + 1) else (event, i)
termination_by event
decreasing_by omega

/-- `Dolphin_AddEventMask`: if the kind is in range (`event < ID<None>`),
set its bit (`s_event_mask[i] |= (1 << event)`); otherwise do nothing. -/
def Dolphin_AddEventMask (event : Nat) (m : Mask) : Mask :=
  if event < noneID then
    let r := maskLoop event 0
    Function.update m r.2 (m r.2 ||| 1 <<< r.1)
  else m

/-- `Dolphin_RemoveEventMask`: if the kind is in range, clear its bit
(`s_event_mask[i] &= ~(1 << event)`); otherwise do nothing. -/
def Dolphin_RemoveEventMask (event : Nat) (m : Mask) : Mask :=
  if event < noneID then
    let r := maskLoop event 0
    Function.update m r.2 (m r.2 &&& ((2 ^ 32 - 1) ^^^ 1 <<< r.1))
  else m

/-- `TestEvent`: in range, return whether the kind's bit is set
(`s_event_mask[i] & (1 << event)` converted to bool); out of range, false. -/
def TestEvent (m : Mask) (event : Nat) : Bool :=
  if event < noneID then
    let r := maskLoop event 0
    m r.2 &&& 1 <<< r.1 != 0
  else false

/-- The module-level mutable state of LuaInterface.cpp. -/
structure State where
  /-- `s_event_queue` (a FIFO; head = next to pop). -/
  queue : List AnyEvent
  /-- `s_event_mask`. -/
  mask : Mask
  /-- `s_thread_running`. -/
  threadRunning : Bool
  /-- `s_current_event`. -/
  currentEvent : AnyEvent
  /-- `Dolphin_Evaluate_Script` (`none` = nullptr). -/
  evaluateScript : Option String

/-- The mask built by `Init`: zeroed, then `Dolphin_AddEventMask(ID<Stop>)`,
then `Dolphin_AddEventMask(ID<Evaluate>)`. -/
def initMask : Mask :=
  Dolphin_AddEventMask evaluateID (Dolphin_AddEventMask stopID (fun _ => 0))

/-- `Init`: clears the queue, resets the mask to `initMask`, stores false in
`s_thread_running` (the spawned thread flips it to true when it starts).
`s_current_event` and `Dolphin_Evaluate_Script` are not reset. -/
def Init (st : State) : State :=
  { st with queue := [], mask := initMask, threadRunning := false }

/-- `HasThreadExited`: `!s_thread_running.load()`. -/
def HasThreadExited (st : State) : Bool := !st.threadRunning

/-- `HasEvent`: `!s_event_queue.Empty()`. -/
def HasEvent (st : State) : Bool := !st.queue.isEmpty

namespace Detail

/-- `Detail::IsEventEnabledByID`: delegates to `TestEvent`. -/
def IsEventEnabledByID (st : State) (id : Nat) : Bool := TestEvent st.mask id

/-- `Detail::SignalEvent`: if the Lua thread is not running, return without
touching anything; otherwise push the event at the tail of the queue and
notify the condition variable (the Bool result records whether a
notification was issued).  Note: no mask check happens here. -/
def SignalEvent (event : AnyEvent) (st : State) : State × Bool :=
  if HasThreadExited st then (st, false)
  else ({ st with queue := st.queue ++ [event] }, true)

end Detail

/-- `IsEventEnabled<T>`: `Detail::IsEventEnabledByID(Event::ID<T>)`. -/
def IsEventEnabled (st : State) (event : AnyEvent) : Bool :=
  Detail.IsEventEnabledByID st (eventID event)

/-- `SignalEventLazy<T>`: construct and signal the event only when its kind
is enabled in the mask; otherwise do nothing (no lock, no side effect). -/
def SignalEventLazy (event : AnyEvent) (st : State) : State × Bool :=
  if IsEventEnabled st event then Detail.SignalEvent event st else (st, false)

/-- `PostFrame`: its body is empty — the `SignalEventLazy<Event::Frame>`
call inside it is commented out in the header. -/
def PostFrame (st : State) : State × Bool := (st, false)

/-- `UnboxEvent`: expose an `Evaluate` payload through
`Dolphin_Evaluate_Script`; leave the pointer alone for other kinds. -/
def UnboxEvent (event : AnyEvent) (script : Option String) : Option String :=
  match event with
  | AnyEvent.Evaluate s => some s
  | _ => script

/-- `CleanupEvent`: null out `Dolphin_Evaluate_Script` if the (previous)
event was an `Evaluate`; leave the pointer alone for other kinds. -/
def CleanupEvent (event : AnyEvent) (script : Option String) : Option String :=
  match event with
  | AnyEvent.Evaluate _ => none
  | _ => script

/-- The `while (!s_event_queue.Pop(...)) { s_event_set_cond.wait_for(...); }`
loop of `Wait`.  Each fuel unit is one timed-out `wait_for` round during
which no event arrives; popping succeeds exactly when the queue is
non-empty, in which case the head is removed, stored in `s_current_event`,
unboxed, and its ID returned.  If the fuel runs out with the queue still
empty, the loop is still running: no value has been returned (`none`). -/
def WaitLoop : Nat → State → Option (Nat × State)
  | fuel, st =>
    match st.queue with
    | e :: rest =>
      let st2 : State := { st with currentEvent := e, queue := rest }
      some (eventID e, { st2 with evaluateScript := UnboxEvent e st2.evaluateScript })
    | [] =>
      match fuel with
      | 0 => none
      | f + 1 => WaitLoop f st

/-- `Wait(timeout_ms)`: first `CleanupEvent(s_current_event)`, then the
pop/wait loop.  `fuel` bounds how many timed-out `wait_for` rounds we
observe; a `none` result means the call has not returned after that many
timeouts. -/
def Wait (fuel : Nat) (st : State) : Option (Nat × State) :=
  WaitLoop fuel { st with evaluateScript := CleanupEvent st.currentEvent st.evaluateScript }

/-- Signal a list of events in order through `SignalEventLazy` (the
mask-checked producer path), as a single producer would. -/
def signalAll (evs : List AnyEvent) (st : State) : State :=
  evs.foldl (fun s e => (SignalEventLazy e s).1) st

/-- Perform `n` successive `Wait` calls (no timeout rounds needed), recording
each returned ID together with the event left in `s_current_event`. -/
def WaitMany : Nat → State → List (Nat × AnyEvent) × State
  | 0, st => ([], st)
  | n + 1, st =>
    match Wait 0 st with
    | none => ([], st)
    | some (id, st2) =>
      let r := WaitMany n st2
      ((id, st2.currentEvent) :: r.1, r.2)

/-- A state right after `Init` with the consumer thread up: empty queue,
`initMask`, `s_thread_running = true`. -/
def runningState : State :=
  { queue := [], mask := initMask, threadRunning := true,
    currentEvent := AnyEvent.None, evaluateScript := none }

/-- A state in which the consumer thread is not running. -/
def stoppedState : State :=
  { queue := [], mask := initMask, threadRunning := false,
    currentEvent := AnyEvent.None, evaluateScript := none }

/-- A running state whose mask additionally has `Frame` enabled. -/
def frameState : State :=
  { queue := [], mask := Dolphin_AddEventMask frameID initMask, threadRunning := true,
    currentEvent := AnyEvent.None, evaluateScript := none }

/-- A running state whose mask has had the `Stop` bit removed. -/
def stopFilteredState : State :=
  { queue := [], mask := Dolphin_RemoveEventMask stopID initMask, threadRunning := true,
    currentEvent := AnyEvent.None, evaluateScript := none }

/-- A running state with an `Evaluate` event followed by a `Frame` event
pending. -/
def evalThenFrameState : State :=
  { queue := [AnyEvent.Evaluate "x", AnyEvent.Frame], mask := initMask,
    threadRunning := true, currentEvent := AnyEvent.None, evaluateScript := none }

/-! ### Characterizations of the mask operations -/

/-- The splitting loop computes the bit index and word index of a kind. -/
theorem maskLoop_eq (event i : Nat) : maskLoop event i = (event % 32, i + event / 32) := by
  induction event using Nat.strong_induction_on generalizing i with
  | _ event ih =>
    rw [maskLoop]
    split
    · next h =>
      rw [ih (event - 32) (by omega) (i + 1)]
      have h1 : (event - 32) % 32 = event % 32 := by omega
      have h2 : i + 1 + (event - 32) / 32 = i + event / 32 := by omega
      rw [h1, h2]
    · next h =>
      have h1 : event % 32 = event := Nat.mod_eq_of_lt (by omega)
      have h2 : event / 32 = 0 := Nat.div_eq_of_lt (by omega)
      rw [h1, h2, Nat.add_zero]

/-- Nonemptiness of a single-bit AND is exactly `testBit`. -/
theorem and_shift_ne (w e : Nat) : (w &&& 1 <<< e != 0) = w.testBit e := by
  have h1 : (1 : Nat) <<< e = 2 ^ e := by rw [Nat.shiftLeft_eq, Nat.one_mul]
  rw [h1, Nat.and_two_pow]
  cases h : w.testBit e
  · simp
  · simp [(Nat.two_pow_pos e).ne']

/-- `TestEvent` reads bit `event % 32` of word `event / 32`. -/
theorem TestEvent_eq (m : Mask) (event : Nat) :
    TestEvent m event =
      if event < noneID then (m (event / 32)).testBit (event % 32) else false := by
  simp only [TestEvent, maskLoop_eq, Nat.zero_add]
  split
  · exact and_shift_ne ..
  · rfl

/-- `Dolphin_AddEventMask` sets bit `event % 32` of word `event / 32`. -/
theorem addMask_eq (event : Nat) (m : Mask) :
    Dolphin_AddEventMask event m =
      if event < noneID then
        Function.update m (event / 32) (m (event / 32) ||| 2 ^ (event % 32))
      else m := by
  have h1 : (1 : Nat) <<< (event % 32) = 2 ^ (event % 32) := by
    rw [Nat.shiftLeft_eq, Nat.one_mul]
  simp only [Dolphin_AddEventMask, maskLoop_eq, Nat.zero_add, h1]

/-- `Dolphin_RemoveEventMask` clears bit `event % 32` of word `event / 32`. -/
theorem removeMask_eq (event : Nat) (m : Mask) :
    Dolphin_RemoveEventMask event m =
      if event < noneID then
        Function.update m (event / 32)
          (m (event / 32) &&& ((2 ^ 32 - 1) ^^^ 2 ^ (event % 32)))
      else m := by
  have h1 : (1 : Nat) <<< (event % 32) = 2 ^ (event % 32) := by
    rw [Nat.shiftLeft_eq, Nat.one_mul]
  simp only [Dolphin_RemoveEventMask, maskLoop_eq, Nat.zero_add, h1]

/-- The mask after `Init` has word 0 equal to 3 (bits for Stop and Evaluate)
and every other word 0. -/
theorem initMask_eq : initMask = Function.update (fun _ => 0) 0 3 := by
  unfold initMask
  rw [addMask_eq, addMask_eq]
  norm_num [stopID, evaluateID, noneID]
  rw [show (1 : Nat) ||| 2 = 3 from by decide]

/-- After `Dolphin_RemoveEventMask(ID<Stop>)`, the Stop bit of the mask is
clear: `TestEvent` reports Stop as disabled. -/
theorem stop_bit_cleared :
    TestEvent (Dolphin_RemoveEventMask stopID initMask) stopID = false := by
  rw [removeMask_eq, TestEvent_eq, initMask_eq]
  norm_num [stopID, noneID]

/-- `TestEvent` on the Init mask for kinds below 32 reads a bit of word 0,
whose value is 3. -/
theorem TestEvent_initMask_small (k : Nat) (hk : k < 32) :
    TestEvent initMask k = decide (k < 2) := by
  rw [TestEvent_eq, initMask_eq,
    if_pos (show k < noneID from Nat.lt_of_lt_of_le hk (by norm_num [noneID]))]
  rw [Nat.div_eq_of_lt hk, Nat.mod_eq_of_lt hk, Function.update_same]
  rw [show (3 : Nat) = 2 ^ 2 - 1 from by norm_num, Nat.testBit_two_pow_sub_one]

/-- Stop is enabled right after `Init`. -/
theorem stop_enabled_init : TestEvent initMask stopID = true := by
  rw [show stopID = 0 from rfl, TestEvent_initMask_small 0 (by norm_num)]
  decide

/-- Evaluate is enabled right after `Init`. -/
theorem evaluate_enabled_init : TestEvent initMask evaluateID = true := by
  rw [show evaluateID = 1 from rfl, TestEvent_initMask_small 1 (by norm_num)]
  decide

/-- Frame is disabled right after `Init`. -/
theorem frame_disabled_init : TestEvent initMask frameID = false := by
  rw [show frameID = 2 from rfl, TestEvent_initMask_small 2 (by norm_num)]
  decide

/-- Frame tests enabled after `Dolphin_AddEventMask(ID<Frame>)` on the Init
mask. -/
theorem frame_enabled_after_add :
    TestEvent (Dolphin_AddEventMask frameID initMask) frameID = true := by
  rw [show frameID = 2 from rfl, addMask_eq, TestEvent_eq, initMask_eq]
  norm_num [noneID]
  decide

/-- The pop/wait loop of `Wait` never produces a value while the queue is
empty: each timed-out `wait_for` round just re-enters the loop. -/
theorem waitLoop_empty (fuel : Nat) (st : State) (h : st.queue = []) :
    WaitLoop fuel st = none := by
  obtain ⟨q, mk, tr, ce, es⟩ := st
  obtain rfl : q = [] := h
  induction fuel with
  | zero => rfl
  | succ f ih => exact ih

/-- `Wait` on an empty queue produces no value, for any number of
timed-out rounds. -/
theorem wait_empty (fuel : Nat) (st : State) (h : st.queue = []) :
    Wait fuel st = none :=
  waitLoop_empty fuel _ h

/-- With a non-empty queue, the pop/wait loop immediately pops the head,
stores it in `s_current_event` and unboxes it. -/
theorem waitLoop_pop (fuel : Nat) (st : State) (e : AnyEvent)
    (rest : List AnyEvent) (h : st.queue = e :: rest) :
    WaitLoop fuel st =
      some (eventID e,
        { st with
          currentEvent := e,
          queue := rest,
          evaluateScript := UnboxEvent e st.evaluateScript }) := by
  obtain ⟨q, mk, tr, ce, es⟩ := st
  obtain rfl : q = e :: rest := h
  cases fuel with
  | zero => rfl
  | succ f => rfl

/-- `Wait` with a non-empty queue: cleanup of the previous event, then pop,
store and unbox the head. -/
theorem wait_pop (fuel : Nat) (st : State) (e : AnyEvent)
    (rest : List AnyEvent) (h : st.queue = e :: rest) :
    Wait fuel st =
      some (eventID e,
        { st with
          currentEvent := e,
          queue := rest,
          evaluateScript :=
            UnboxEvent e (CleanupEvent st.currentEvent st.evaluateScript) }) := by
  unfold Wait
  exact waitLoop_pop fuel _ e rest h

/-- Inversion: every successful `Wait` popped the head of a non-empty
queue, returned its ID, stored it in `s_current_event`, and set the exposed
script to the unboxing of the popped event over the cleaned-up pointer. -/
theorem wait_some_inv (fuel : Nat) (st : State) (id : Nat) (st2 : State)
    (h : Wait fuel st = some (id, st2)) :
    ∃ e rest, st.queue = e :: rest ∧ id = eventID e ∧
      st2 = { st with
        currentEvent := e,
        queue := rest,
        evaluateScript :=
          UnboxEvent e (CleanupEvent st.currentEvent st.evaluateScript) } := by
  cases hq : st.queue with
  | nil =>
    rw [wait_empty fuel st hq] at h
    exact absurd h (by simp)
  | cons e rest =>
    rw [wait_pop fuel st e rest hq] at h
    simp only [Option.some.injEq, Prod.mk.injEq] at h
    exact ⟨e, rest, rfl, h.1.symm, h.2.symm⟩

/-- The lazily-signaling path never touches the mask or the running flag. -/
theorem signalLazy_fields (ev : AnyEvent) (st : State) :
    ((SignalEventLazy ev st).1).mask = st.mask ∧
    ((SignalEventLazy ev st).1).threadRunning = st.threadRunning := by
  unfold SignalEventLazy Detail.SignalEvent
  split
  · split
    · exact ⟨rfl, rfl⟩
    · exact ⟨rfl, rfl⟩
  · exact ⟨rfl, rfl⟩

/-- An enabled event signaled while the thread runs is appended at the
tail. -/
theorem signalLazy_enabled_queue (ev : AnyEvent) (st : State)
    (hen : IsEventEnabled st ev = true) (hrun : st.threadRunning = true) :
    (SignalEventLazy ev st).1.queue = st.queue ++ [ev] := by
  simp [SignalEventLazy, hen, Detail.SignalEvent, HasThreadExited, hrun]

/-- A disabled kind is dropped by the lazily-signaling path: no state
change, no notification. -/
theorem signalLazy_disabled (ev : AnyEvent) (st : State)
    (h : IsEventEnabled st ev = false) :
    SignalEventLazy ev st = (st, false) := by
  simp [SignalEventLazy, h]

/-- Signaling a list of enabled events appends them in order and preserves
the mask and the running flag. -/
theorem signalAll_spec (evs : List AnyEvent) (st : State)
    (hrun : st.threadRunning = true)
    (hen : ∀ e, e ∈ evs → IsEventEnabled st e = true) :
    (signalAll evs st).queue = st.queue ++ evs ∧
    (signalAll evs st).mask = st.mask ∧
    (signalAll evs st).threadRunning = true := by
  induction evs generalizing st with
  | nil => simpa [signalAll] using hrun
  | cons e rest ih =>
    have hen_e : IsEventEnabled st e = true := hen e (by simp)
    have h1q := signalLazy_enabled_queue e st hen_e hrun
    have h1f := signalLazy_fields e st
    have hstep : signalAll (e :: rest) st = signalAll rest (SignalEventLazy e st).1 := rfl
    have ih2 := ih (SignalEventLazy e st).1 (h1f.2.trans hrun) (fun x hx => by
      show TestEvent ((SignalEventLazy e st).1).mask (eventID x) = true
      rw [h1f.1]
      exact hen x (by simp [hx]))
    refine ⟨?_, ?_, by rw [hstep]; exact ih2.2.2⟩
    · rw [hstep, ih2.1, h1q]
      simp
    · rw [hstep, ih2.2.1, h1f.1]

/-- Draining a queue of `n` events by `n` `Wait` calls returns exactly the
queue contents in order, each paired with the event stored in
`s_current_event` at that step. -/
theorem waitMany_drain (q : List AnyEvent) (st : State) (h : st.queue = q) :
    (WaitMany q.length st).1 = q.map (fun e => (eventID e, e)) := by
  induction q generalizing st with
  | nil => simp [WaitMany]
  | cons e rest ih =>
    have hw := wait_pop 0 st e rest h
    simp only [List.length_cons, WaitMany, hw, List.map_cons]
    exact congrArg _ (ih _ rfl)

/-! ### Claim theorems -/

/-- C5: after every call to `Init`, the event mask contains exactly the kinds
Stop (ID 0) and Evaluate (ID 1) — `TestEvent` is true for those two kinds and
false for every other kind — and the pending queue is empty. -/
theorem C5_init_mask_exact (st : State) (k : Nat) :
    TestEvent (Init st).mask k = decide (k = stopID ∨ k = evaluateID) ∧
    (Init st).queue = [] := by
  refine ⟨?_, rfl⟩
  show TestEvent initMask k = _
  rw [TestEvent_eq, initMask_eq]
  by_cases hk : k < noneID
  · rw [if_pos hk]
    by_cases h32 : k < 32
    · have hdiv : k / 32 = 0 := Nat.div_eq_of_lt h32
      have hmod : k % 32 = k := Nat.mod_eq_of_lt h32
      rw [hdiv, hmod, Function.update_same]
      rw [show (3 : Nat) = 2 ^ 2 - 1 from by norm_num, Nat.testBit_two_pow_sub_one]
      exact decide_eq_decide.mpr (by simp only [stopID, evaluateID]; omega)
    · have hdiv : k / 32 ≠ 0 := by omega
      rw [Function.update_noteq hdiv]
      have hne : ¬(k = stopID ∨ k = evaluateID) := by
        simp only [stopID, evaluateID]
        omega
      simp [hne]
  · rw [if_neg hk]
    simp only [noneID] at hk
    have hne : ¬(k = stopID ∨ k = evaluateID) := by
      simp only [stopID, evaluateID]
      omega
    simp [hne]

/-- C6: for every kind value at or beyond the None sentinel (ID 256),
`TestEvent` returns false and `Dolphin_AddEventMask` and
`Dolphin_RemoveEventMask` leave the mask completely unchanged; and for every
in-range kind the word index computed by the shared splitting loop is below
8, so no operation reads or writes outside the 8-word mask array. -/
theorem C6_out_of_range_safe (m : Mask) (k j : Nat)
    (hk : noneID ≤ k) (hj : j < noneID) :
    TestEvent m k = false ∧
    Dolphin_AddEventMask k m = m ∧
    Dolphin_RemoveEventMask k m = m ∧
    (maskLoop j 0).2 < 8 := by
  have hnk : ¬k < noneID := Nat.not_lt.mpr hk
  refine ⟨?_, ?_, ?_, ?_⟩
  · rw [TestEvent_eq, if_neg hnk]
  · rw [addMask_eq, if_neg hnk]
  · rw [removeMask_eq, if_neg hnk]
  · rw [maskLoop_eq]
    simp only [noneID] at hj
    simp only [Nat.zero_add]
    omega

/-- C6 witness: the out-of-range kind 9999 is rejected by all three mask
operations on the Init mask, and the largest in-range kind 255 maps to word
index 7, inside the array. -/
theorem C6_out_of_range_safe_witness :
    TestEvent initMask 9999 = false ∧
    Dolphin_AddEventMask 9999 initMask = initMask ∧
    Dolphin_RemoveEventMask 9999 initMask = initMask ∧
    (maskLoop 255 0).2 < 8 :=
  C6_out_of_range_safe initMask 9999 255 (by norm_num [noneID]) (by norm_num [noneID])

/-- C7: for every kind and every mask, `Dolphin_AddEventMask` and
`Dolphin_RemoveEventMask` are idempotent; after a remove the kind tests
disabled (for any kind, in range or not); and after an add of an in-range
kind the kind tests enabled. -/
theorem C7_mask_algebra (m : Mask) (k : Nat) :
    Dolphin_AddEventMask k (Dolphin_AddEventMask k m) = Dolphin_AddEventMask k m ∧
    Dolphin_RemoveEventMask k (Dolphin_RemoveEventMask k m) =
      Dolphin_RemoveEventMask k m ∧
    TestEvent (Dolphin_RemoveEventMask k m) k = false ∧
    (k < noneID → TestEvent (Dolphin_AddEventMask k m) k = true) := by
  have he : k % 32 < 32 := Nat.mod_lt _ (by norm_num)
  by_cases hk : k < noneID
  · refine ⟨?_, ?_, ?_, ?_⟩
    · simp only [addMask_eq, if_pos hk, Function.update_same, Function.update_idem]
      rw [Nat.or_assoc, Nat.or_self]
    · simp only [removeMask_eq, if_pos hk, Function.update_same, Function.update_idem]
      rw [Nat.and_assoc, Nat.and_self]
    · rw [removeMask_eq, if_pos hk, TestEvent_eq, if_pos hk, Function.update_same]
      rw [Nat.testBit_and, Nat.testBit_xor, Nat.testBit_two_pow_sub_one,
        Nat.testBit_two_pow_self]
      simp [he]
    · intro _
      rw [addMask_eq, if_pos hk, TestEvent_eq, if_pos hk, Function.update_same]
      simp [Nat.testBit_or, Nat.testBit_two_pow_self]
  · have hnk := hk
    refine ⟨?_, ?_, ?_, fun h => absurd h hk⟩
    · rw [addMask_eq, if_neg hnk, addMask_eq, if_neg hnk]
    · rw [removeMask_eq, if_neg hnk, removeMask_eq, if_neg hnk]
    · rw [removeMask_eq, if_neg hnk, TestEvent_eq, if_neg hnk]

/-- C7 witness: for the in-range kind 5 on the Init mask, an add makes the
kind test enabled and a remove makes it test disabled. -/
theorem C7_mask_algebra_witness :
    TestEvent (Dolphin_AddEventMask 5 initMask) 5 = true ∧
    TestEvent (Dolphin_RemoveEventMask 5 initMask) 5 = false :=
  ⟨(C7_mask_algebra initMask 5).2.2.2 (by norm_num [noneID]),
   (C7_mask_algebra initMask 5).2.2.1⟩

/-- C2 counterexample: immediately after `Init`, a single call to
`Dolphin_RemoveEventMask(ID<Stop>)` makes `TestEvent(ID<Stop>)` false — the
Stop kind is removable from the event mask, so membership of Stop in the mask
is not an invariant. -/
theorem C2_counterexample :
    TestEvent (Dolphin_RemoveEventMask stopID initMask) stopID = false :=
  stop_bit_cleared

/-- C2 amended: the Stop bit of the mask is removable
(`Dolphin_RemoveEventMask(0)` after `Init` makes `TestEvent(0)` false);
however, Stop delivery does not depend on the mask: `Detail::SignalEvent` —
the function `Shutdown` uses to signal Stop — performs no mask check and
always appends the event and notifies the consumer while the Lua thread is
running, whatever the mask state. -/
theorem C2_stop_removable_delivery_unmasked (st : State)
    (h : st.threadRunning = true) :
    TestEvent (Dolphin_RemoveEventMask stopID initMask) stopID = false ∧
    (Detail.SignalEvent AnyEvent.Stop st).1.queue = st.queue ++ [AnyEvent.Stop] ∧
    (Detail.SignalEvent AnyEvent.Stop st).2 = true := by
  refine ⟨stop_bit_cleared, ?_, ?_⟩ <;>
    simp [Detail.SignalEvent, HasThreadExited, h]

/-- C2 witness: in a running state with the Stop bit removed from the mask,
signaling Stop through `Detail::SignalEvent` still enqueues it and notifies. -/
theorem C2_stop_removable_delivery_unmasked_witness :
    TestEvent (Dolphin_RemoveEventMask stopID initMask) stopID = false ∧
    (Detail.SignalEvent AnyEvent.Stop stopFilteredState).1.queue =
      stopFilteredState.queue ++ [AnyEvent.Stop] ∧
    (Detail.SignalEvent AnyEvent.Stop stopFilteredState).2 = true :=
  C2_stop_removable_delivery_unmasked stopFilteredState rfl

/-- C1 (code bug): `Wait` over an empty queue never returns.  The
`while (!Pop) wait_for` loop re-arms the timed wait after every timeout, so
no number of elapsed timeout intervals makes the call return — in
particular it never returns the None sentinel ID 256 that the spec promises
on timeout. -/
theorem C1_wait_empty_never_returns (fuel : Nat) (st : State)
    (h : st.queue = []) :
    Wait fuel st = none :=
  wait_empty fuel st h

/-- C1 witness: on the post-Init running state (empty queue), five timeout
rounds of `Wait` still produce no return value. -/
theorem C1_wait_empty_never_returns_witness :
    Wait 5 runningState = none :=
  C1_wait_empty_never_returns 5 runningState rfl

/-- C3 counterexample: Stop is not exempt from mask filtering in the
mask-checked signal path.  In a running state whose mask has had the Stop
bit removed, `SignalEventLazy` applied to a Stop event is a no-op: nothing
is enqueued and no notification is issued — contradicting "Stop is never
filtered and is always enqueued". -/
theorem C3_counterexample :
    (SignalEventLazy AnyEvent.Stop stopFilteredState).1.queue = [] ∧
    (SignalEventLazy AnyEvent.Stop stopFilteredState).2 = false := by
  rw [signalLazy_disabled AnyEvent.Stop stopFilteredState stop_bit_cleared]
  exact ⟨rfl, rfl⟩

/-- C3 amended: the mask check lives only in `SignalEventLazy`, which drops
every disabled kind uniformly — including Stop, which gets no special case
there.  `Detail::SignalEvent` (the path `Shutdown` uses for Stop) performs
no mask check at all, so a Stop signaled through it is enqueued for every
mask state while the consumer thread is running. -/
theorem C3_disabled_filtered_detail_unmasked (st : State) (ev : AnyEvent)
    (hdis : IsEventEnabled st ev = false) (hrun : st.threadRunning = true) :
    SignalEventLazy ev st = (st, false) ∧
    (Detail.SignalEvent AnyEvent.Stop st).1.queue = st.queue ++ [AnyEvent.Stop] := by
  constructor
  · exact signalLazy_disabled ev st hdis
  · simp [Detail.SignalEvent, HasThreadExited, hrun]

/-- C3 witness: with the post-Init mask, the disabled Frame kind is dropped
by `SignalEventLazy` while Stop via `Detail::SignalEvent` is enqueued. -/
theorem C3_disabled_filtered_detail_unmasked_witness :
    SignalEventLazy AnyEvent.Frame runningState = (runningState, false) ∧
    (Detail.SignalEvent AnyEvent.Stop runningState).1.queue =
      runningState.queue ++ [AnyEvent.Stop] :=
  C3_disabled_filtered_detail_unmasked runningState AnyEvent.Frame
    frame_disabled_init rfl

/-- C9: while the consumer thread is not running (before the Lua thread has
started or after it has exited), `Detail::SignalEvent` is a silent no-op for
every event, including Stop: the state (and so the pending queue) is
unchanged and no notification is issued. -/
theorem C9_signal_without_thread_noop (st : State) (ev : AnyEvent)
    (h : st.threadRunning = false) :
    Detail.SignalEvent ev st = (st, false) := by
  simp [Detail.SignalEvent, HasThreadExited, h]

/-- C9 witness: signaling Stop while the thread is down changes nothing. -/
theorem C9_signal_without_thread_noop_witness :
    Detail.SignalEvent AnyEvent.Stop stoppedState = (stoppedState, false) :=
  C9_signal_without_thread_noop stoppedState AnyEvent.Stop rfl

/-- C10: `PostFrame` changes nothing — even in a running state in which the
Frame kind is enabled (where the commented-out lazy signal would have
appended a Frame event to the queue), `PostFrame` returns the state
unchanged and issues no wake. -/
theorem C10_postframe_noop (st : State) (hrun : st.threadRunning = true)
    (hfr : IsEventEnabled st AnyEvent.Frame = true) :
    PostFrame st = (st, false) ∧
    (SignalEventLazy AnyEvent.Frame st).1.queue = st.queue ++ [AnyEvent.Frame] := by
  constructor
  · rfl
  · simp [SignalEventLazy, hfr, Detail.SignalEvent, HasThreadExited, hrun]

/-- C10 witness: in a running state with Frame enabled, `PostFrame` is the
identity while an actual lazy Frame signal would have enqueued. -/
theorem C10_postframe_noop_witness :
    PostFrame frameState = (frameState, false) ∧
    (SignalEventLazy AnyEvent.Frame frameState).1.queue =
      frameState.queue ++ [AnyEvent.Frame] :=
  C10_postframe_noop frameState rfl frame_enabled_after_add

/-- C4: events signaled in order by a single producer through the
mask-checked signal path, starting from a running state with an empty
queue and all their kinds enabled, are returned by successive `Wait` calls
in exactly the signaling order (signal appends at the tail, `Wait` pops the
head). -/
theorem C4_fifo_order (st : State) (evs : List AnyEvent)
    (hrun : st.threadRunning = true) (hq : st.queue = [])
    (hen : ∀ e, e ∈ evs → IsEventEnabled st e = true) :
    (WaitMany evs.length (signalAll evs st)).1 =
      evs.map (fun e => (eventID e, e)) := by
  have hs := signalAll_spec evs st hrun hen
  refine waitMany_drain evs _ ?_
  rw [hs.1, hq]
  simp

/-- C4 witness: signaling Stop then an Evaluate from the post-Init running
state and draining with two `Wait` calls returns them in that order. -/
theorem C4_fifo_order_witness :
    (WaitMany
        ([AnyEvent.Stop, AnyEvent.Evaluate "go"]).length
        (signalAll [AnyEvent.Stop, AnyEvent.Evaluate "go"] runningState)).1 =
      ([AnyEvent.Stop, AnyEvent.Evaluate "go"]).map (fun e => (eventID e, e)) :=
  C4_fifo_order runningState [AnyEvent.Stop, AnyEvent.Evaluate "go"] rfl rfl
    (by
      intro e he
      simp only [List.mem_cons, List.not_mem_nil, or_false] at he
      rcases he with rfl | rfl
      · exact stop_enabled_init
      · exact evaluate_enabled_init)

/-- C8: whenever one `Wait` call returns an Evaluate event and the next
`Wait` call returns an event of any other kind, the exposed payload pointer
`Dolphin_Evaluate_Script` is null afterwards: the second call cleared the
previous Evaluate payload before exposing the new event. -/
theorem C8_evaluate_payload_isolation (f1 f2 id1 id2 : Nat)
    (st0 st1 st2 : State)
    (h1 : Wait f1 st0 = some (id1, st1)) (he1 : id1 = evaluateID)
    (h2 : Wait f2 st1 = some (id2, st2)) (he2 : id2 ≠ evaluateID) :
    st2.evaluateScript = none := by
  obtain ⟨e1, r1, hq1, hid1, hst1⟩ := wait_some_inv f1 st0 id1 st1 h1
  obtain ⟨e2, r2, hq2, hid2, hst2⟩ := wait_some_inv f2 st1 id2 st2 h2
  have hc : ∃ s, st1.currentEvent = AnyEvent.Evaluate s := by
    rw [hst1]
    cases e1 with
    | Evaluate s => exact ⟨s, rfl⟩
    | None => rw [he1] at hid1; simp [eventID, evaluateID, noneID] at hid1
    | Stop => rw [he1] at hid1; simp [eventID, evaluateID, stopID] at hid1
    | Frame => rw [he1] at hid1; simp [eventID, evaluateID, frameID] at hid1
  obtain ⟨s, hc⟩ := hc
  rw [hst2]
  show UnboxEvent e2 (CleanupEvent st1.currentEvent st1.evaluateScript) = none
  rw [hc]
  cases e2 with
  | Evaluate t => exact absurd (hid2.trans rfl) he2
  | None => rfl
  | Stop => rfl
  | Frame => rfl

/-- C8 witness: draining an Evaluate event then a Frame event leaves the
final state with a null `Dolphin_Evaluate_Script`. -/
theorem C8_evaluate_payload_isolation_witness :
    ({ queue := [], mask := initMask, threadRunning := true,
       currentEvent := AnyEvent.Frame, evaluateScript := none } : State).evaluateScript
      = none :=
  C8_evaluate_payload_isolation 0 0 1 2 evalThenFrameState
    { queue := [AnyEvent.Frame], mask := initMask, threadRunning := true,
      currentEvent := AnyEvent.Evaluate "x", evaluateScript := some "x" }
    { queue := [], mask := initMask, threadRunning := true,
      currentEvent := AnyEvent.Frame, evaluateScript := none }
    rfl rfl rfl (by decide)

end Lua
